import Mathlib

/-!
Verification of the port-scanner subsystem (src/features/scanner.rs).

The Rust code is shallowly embedded: strings are modelled as lists of
characters (`Str`), machine integers (`u16`, `usize`) as `Nat`, fallible
functions return `Except String`, and the network and the file system are
modelled as explicit oracle parameters (`NetEnv`, a `saveOk` flag).
Every definition follows the corresponding Rust function line by line;
definitions whose doc comment says so follow the specification's words
instead, for comparison with the code.
-/

/-- Strings are modelled as lists of characters, matching iteration over
Rust `str` by `char`. -/
abbrev Str := List Char

namespace StrOps

/-- Model of Rust `str::split(sep)`: splits at every occurrence of `sep`,
keeping empty fragments, so the result always has at least one element. -/
def splitCh (sep : Char) : Str → List Str
  | [] => [[]]
  | c :: rest =>
    let r := splitCh sep rest
    if c = sep then [] :: r
    else
      match r with
      | [] => [[c]]
      | g :: gs => (c :: g) :: gs

/-- Model of Rust `char::is_whitespace` restricted to the ASCII whitespace
characters that can occur in scanner inputs. -/
def isWS (c : Char) : Bool :=
  c = ' ' || c = '\t' || c = '\n' || c = '\r'

/-- Model of Rust `str::trim`. -/
def trimCh (l : Str) : Str :=
  ((l.dropWhile isWS).reverse.dropWhile isWS).reverse

/-- Numeric value of a digit string (most significant digit first). -/
def natOfDigits (l : Str) : Nat :=
  l.foldl (fun a c => a * 10 + (c.toNat - '0'.toNat)) 0

/-- Digits-only check with at least one digit. -/
def allDigits (l : Str) : Bool :=
  !l.isEmpty && l.all Char.isDigit

/-- Value of a digit string as a `u16`: one or more decimal digits with
value at most 65535, otherwise an error. -/
def parseDigitsU16 (digits : Str) : Option Nat :=
  if allDigits digits then
    if natOfDigits digits ≤ 65535 then some (natOfDigits digits) else none
  else none

/-- Model of Rust `str::parse::<u16>()`: optional leading `+`, then one or
more decimal digits, value at most 65535; anything else is an error. -/
def parseU16 : Str → Option Nat
  | '+' :: rest => parseDigitsU16 rest
  | l => parseDigitsU16 l

end StrOps

/-- Scan type options (`ScanType` in scanner.rs). -/
inductive ScanType where
  | QuickScan
  | StandardScan
  | FullScan
  | CustomRange
deriving DecidableEq, Repr

namespace ScanType

/-- `ScanType::all()`. -/
def all : List ScanType :=
  [ScanType.QuickScan, ScanType.StandardScan, ScanType.FullScan, ScanType.CustomRange]

/-- `ScanType::get_ports()`: the ports to scan for each scan type.
`FullScan` is `(1..=65535).collect()`; `CustomRange` is the empty list,
to be filled from user input. -/
def get_ports : ScanType → List Nat
  | ScanType.QuickScan =>
      [21, 22, 23, 25, 53, 80, 110, 143, 443, 3306, 3389, 5432, 8080, 8443]
  | ScanType.StandardScan =>
      [21, 22, 23, 25, 53, 80, 110, 111, 135, 139, 143, 443, 445, 993, 995, 1723,
       3306, 3389, 5900, 8080, 8443, 20, 69, 123, 137, 138, 161, 162, 389, 636,
       989, 990, 1025, 1026, 1027, 1433, 1434, 1521, 2049, 2082, 2083, 2086, 2087,
       2095, 2096, 3128, 5432, 5800, 5901, 6000, 6001, 8000, 8008, 8009, 8081,
       8082, 8083, 8084, 8085, 8086, 8087, 8088, 8089, 8090, 8180, 8181, 8888,
       9090, 9091, 9100, 9999, 10000, 32768, 32769, 32770, 32771, 32772, 32773,
       32774, 32775, 32776, 32777, 49152, 49153, 49154, 49155, 49156, 49157, 50000,
       50001, 50002, 50003]
  | ScanType.FullScan => List.range' 1 65535
  | ScanType.CustomRange => []

end ScanType

namespace Scanner

open StrOps

/-- The inner loop of the range branch of `Scanner::parse_port_range`:
for each port in `start..=stop`, push it unless already present. -/
def pushRange (ports : List Nat) (start stop : Nat) : List Nat :=
  (List.range' start (stop + 1 - start)).foldl
    (fun acc p => if p ∈ acc then acc else acc ++ [p]) ports

/-- The body of the token loop of `Scanner::parse_port_range`, applied to
an already-trimmed token `p`. -/
def processTrimmed (ports : List Nat) (p : Str) : Except String (List Nat) :=
  if p.contains '-' then
    match splitCh '-' p with
    | [a, b] =>
      match parseU16 (trimCh a), parseU16 (trimCh b) with
      | some start, some stop =>
        if start > stop then
          Except.error "Start port must be less than or equal to end port"
        else if start = 0 then
          Except.error "Port numbers must be between 1 and 65535"
        else
          Except.ok (pushRange ports start stop)
      | _, _ => Except.error "Invalid port number"
    | _ => Except.error "Invalid port range format"
  else
    match parseU16 p with
    | some port =>
      if port = 0 then
        Except.error "Port numbers must be between 1 and 65535"
      else
        Except.ok (if port ∈ ports then ports else ports ++ [port])
    | none => Except.error "Invalid port number"

/-- One iteration of the token loop of `Scanner::parse_port_range`:
processes a single comma-separated token against the accumulated ports. -/
def processPart (ports : List Nat) (part : Str) : Except String (List Nat) :=
  processTrimmed ports (trimCh part)

/-- `Scanner::parse_port_range`: split on commas, process each token,
reject an empty result, and sort ascending.  `Vec::sort` on port numbers
is modelled by insertion sort; on `Nat` the sorted permutation is unique,
so the model agrees with any stable sort. -/
def parse_port_range (input : Str) : Except String (List Nat) :=
  match (splitCh ',' input).foldlM processPart [] with
  | Except.error e => Except.error e
  | Except.ok ports =>
    if ports.isEmpty then Except.error "No valid ports specified"
    else Except.ok (List.insertionSort (· ≤ ·) ports)

/-- Well-formed accumulated port lists: no duplicates, all in [1, 65535]. -/
def goodPorts (l : List Nat) : Prop :=
  l.Nodup ∧ ∀ x ∈ l, 1 ≤ x ∧ x ≤ 65535

end Scanner

/-- Port state (`PortState` in scanner.rs). -/
inductive PortState where
  | Open
  | Closed
  | Filtered
deriving DecidableEq, Repr

/-- Port information (`PortInfo` in scanner.rs). -/
structure PortInfo where
  port : Nat
  service : Option String
  state : PortState
deriving DecidableEq, Repr

/-- C1 counterexample helper and C4 target: the claim statement over the
three fixed scan types. -/
def fixedScanTypes : List ScanType :=
  [ScanType.QuickScan, ScanType.StandardScan, ScanType.FullScan]

namespace Claims

open StrOps

/-- Following the claim's wording (C3): a range token not consisting of
exactly two hyphen-separated parts. -/
def malformedRange (part : Str) : Bool :=
  (trimCh part).contains '-' && ((splitCh '-' (trimCh part)).length != 2)

/-- Following the claim's wording (C3): a non-numeric token, i.e. a token
or range endpoint that fails to parse as a `u16` port number. -/
def nonNumericToken (part : Str) : Bool :=
  if (trimCh part).contains '-' then
    match splitCh '-' (trimCh part) with
    | [a, b] => (parseU16 (trimCh a)).isNone || (parseU16 (trimCh b)).isNone
    | _ => false
  else (parseU16 (trimCh part)).isNone

/-- Following the claim's wording (C3): a token carrying a port equal to 0. -/
def zeroPort (part : Str) : Bool :=
  if (trimCh part).contains '-' then
    match splitCh '-' (trimCh part) with
    | [a, b] => (parseU16 (trimCh a) == some 0) || (parseU16 (trimCh b) == some 0)
    | _ => false
  else parseU16 (trimCh part) == some 0

/-- Following the claim's wording (C3): a range with start > end. -/
def startGtEnd (part : Str) : Bool :=
  if (trimCh part).contains '-' then
    match splitCh '-' (trimCh part) with
    | [a, b] =>
      match parseU16 (trimCh a), parseU16 (trimCh b) with
      | some s, some e => decide (s > e)
      | _, _ => false
    | _ => false
  else false

/-- An invalid token per claim C3: any of the four itemized conditions. -/
def tokenInvalid (part : Str) : Bool :=
  malformedRange part || nonNumericToken part || zeroPort part || startGtEnd part

end Claims

namespace StrOps

/-- Rust byte length of a string (`str::len`): the sum of the UTF-8 sizes
of its characters. -/
def utf8Len (l : Str) : Nat :=
  l.foldl (fun n c => n + c.utf8Size) 0

/-- ASCII hexadecimal digit. -/
def isHexDigitCh (c : Char) : Bool :=
  c.isDigit || ('a' ≤ c && c ≤ 'f') || ('A' ≤ c && c ≤ 'F')

end StrOps

namespace IpAddr

open StrOps

/-- Model of one octet of Rust `Ipv4Addr::from_str`: one or more decimal
digits, no leading zero (except the single digit "0"), value at most 255. -/
def parseIPv4Octet (l : Str) : Option Nat :=
  if allDigits l then
    match l with
    | '0' :: _ :: _ => none
    | _ => if natOfDigits l ≤ 255 then some (natOfDigits l) else none
  else none

/-- Model of Rust `Ipv4Addr::from_str`: exactly four dot-separated octets. -/
def is_ipv4 (s : Str) : Bool :=
  match (splitCh '.' s).map parseIPv4Octet with
  | [some _, some _, some _, some _] => true
  | _ => false

/-- A 16-bit IPv6 group: one to four hexadecimal digits. -/
def isH16 (g : Str) : Bool :=
  decide (1 ≤ g.length) && decide (g.length ≤ 4) && g.all isHexDigitCh

/-- Counts the 16-bit units of a colon-separated group list; when
`v4AtEnd` is set the final group may be an embedded IPv4 address, which
counts as two units. -/
def unitsOf (v4AtEnd : Bool) : List Str → Option Nat
  | [] => some 0
  | [g] =>
    if isH16 g then some 1
    else if v4AtEnd && is_ipv4 g then some 2
    else none
  | g :: rest =>
    if isH16 g then (unitsOf v4AtEnd rest).map (· + 1) else none

/-- Splits a string at the first occurrence of "::", if any. -/
def splitOnDoubleColon : Str → Option (Str × Str)
  | [] => none
  | ':' :: ':' :: rest => some ([], rest)
  | c :: rest => (splitOnDoubleColon rest).map (fun p => (c :: p.1, p.2))

/-- Model of Rust `Ipv6Addr::from_str`: without "::", exactly eight 16-bit
units (the last possibly an embedded IPv4); with "::", at most seven
explicit units in total (the compression stands for at least one zero
group), the embedded IPv4 allowed only at the very end.  A second "::"
surfaces as an empty group on the right side and is rejected. -/
def is_ipv6 (s : Str) : Bool :=
  match splitOnDoubleColon s with
  | none =>
    match unitsOf true (splitCh ':' s) with
    | some n => n == 8
    | none => false
  | some (lhs, rhs) =>
    match unitsOf false (if lhs.isEmpty then [] else splitCh ':' lhs),
          unitsOf true (if rhs.isEmpty then [] else splitCh ':' rhs) with
    | some a, some b => decide (a + b ≤ 7)
    | _, _ => false

/-- Model of Rust `target.parse::<IpAddr>().is_ok()`: an IPv4 or IPv6
literal. -/
def is_ip_addr (s : Str) : Bool :=
  is_ipv4 s || is_ipv6 s

end IpAddr

namespace Scanner

open StrOps

/-- The label loop of `Scanner::validate_target`: every dot-separated part
must be 1–63 bytes of alphanumerics and hyphens, with no leading or
trailing hyphen.  Rust `char::is_alphanumeric` tests the Unicode
Alphabetic and numeric properties; its character table is abstracted as
the parameter `isAlnum`, in the same way the network and file system are
abstracted as oracles, so every theorem below holds at whichever table
the runtime uses. -/
def validateLabels (isAlnum : Char → Bool) : List Str → Except String Unit
  | [] => Except.ok ()
  | p :: rest =>
    if p.isEmpty || decide (utf8Len p > 63) then
      Except.error "Invalid hostname format"
    else if !(p.all fun c => isAlnum c || c = '-') then
      Except.error "Invalid hostname format (only alphanumeric and hyphens allowed)"
    else if p.head? == some '-' || p.getLast? == some '-' then
      Except.error "Invalid hostname format (cannot start or end with hyphen)"
    else validateLabels isAlnum rest

/-- `Scanner::validate_target`: reject the empty string; accept IP
literals outright; otherwise enforce the 253-byte bound and the hostname
label rules.  `isAlnum` abstracts the `char::is_alphanumeric` table. -/
def validate_target (isAlnum : Char → Bool) (target : Str) : Except String Unit :=
  if target.isEmpty then Except.error "Target cannot be empty"
  else if IpAddr.is_ip_addr target then Except.ok ()
  else if decide (utf8Len target > 253) then
    Except.error "Hostname too long (max 253 characters)"
  else validateLabels isAlnum (splitCh '.' target)

end Scanner

namespace Claims

open StrOps

/-- Following claim C5's wording: a dot-separated label that is empty,
longer than 63 characters, contains a character other than alphanumerics
and hyphen, or starts or ends with a hyphen — relative to the same
alphanumeric table `isAlnum` as the code. -/
def badLabel (isAlnum : Char → Bool) (p : Str) : Bool :=
  p.isEmpty || decide (utf8Len p > 63) ||
  !(p.all fun c => isAlnum c || c = '-') ||
  p.head? == some '-' || p.getLast? == some '-'

/-- Following claim C9's wording: every non-alphanumeric character of the
target replaced by an underscore. -/
def sanitizeTarget (target : Str) : Str :=
  target.map (fun c => if c.isAlphanum then c else '_')

end Claims

/-- Scan options (`ScanOption` in scanner.rs). -/
inductive ScanOption where
  | ServiceDetection
  | SaveToFile
deriving DecidableEq, Repr

/-- `ScanOption::all()`. -/
def ScanOption.all : List ScanOption :=
  [ScanOption.ServiceDetection, ScanOption.SaveToFile]

/-- Scanner state machine (`ScannerState` in scanner.rs).  Targets and
input buffers are character lists; messages are Lean strings. -/
inductive ScannerState where
  | SelectingScanType (selected : Nat)
  | EnteringTarget (scan_type : ScanType) (input : Str)
  | EnteringPortRange (target : Str) (input : Str)
  | SelectingOptions (scan_type : ScanType) (target : Str) (selected : Nat)
      (service_detection : Bool) (save_to_file : Bool)
      (custom_ports : Option (List Nat))
  | Confirming (scan_type : ScanType) (target : Str)
      (service_detection : Bool) (save_to_file : Bool)
      (custom_ports : Option (List Nat))
  | Scanning (scan_type : ScanType) (target : Str) (progress : Nat) (total : Nat)
      (service_detection : Bool) (save_to_file : Bool)
      (custom_ports : Option (List Nat))
  | ViewingResults (target : Str) (open_ports : List PortInfo) (scroll : Nat)
  | Success (message : String)
  | Error (message : String)
deriving DecidableEq, Repr

namespace Scanner

open StrOps

/-- `Scanner::detect_service`: static lookup from a well-known port to a
service name. -/
def detect_service (port : Nat) : Option String :=
  match port with
  | 20 => some "FTP Data"
  | 21 => some "FTP"
  | 22 => some "SSH"
  | 23 => some "Telnet"
  | 25 => some "SMTP"
  | 53 => some "DNS"
  | 80 => some "HTTP"
  | 110 => some "POP3"
  | 143 => some "IMAP"
  | 443 => some "HTTPS"
  | 445 => some "SMB"
  | 993 => some "IMAPS"
  | 995 => some "POP3S"
  | 1433 => some "MSSQL"
  | 1521 => some "Oracle"
  | 3306 => some "MySQL"
  | 3389 => some "RDP"
  | 5432 => some "PostgreSQL"
  | 5900 => some "VNC"
  | 6379 => some "Redis"
  | 8080 => some "HTTP Proxy"
  | 8443 => some "HTTPS Alt"
  | 27017 => some "MongoDB"
  | _ => none

/-- `Scanner::previous`: moves the selection up. -/
def previous : ScannerState → ScannerState
  | ScannerState.SelectingScanType selected =>
    ScannerState.SelectingScanType
      (if selected = 0 then ScanType.all.length - 1 else selected - 1)
  | ScannerState.SelectingOptions ty tgt selected sd stf cp =>
    ScannerState.SelectingOptions ty tgt
      (if selected = 0 then ScanOption.all.length - 1 else selected - 1) sd stf cp
  | ScannerState.ViewingResults tgt ps scroll =>
    ScannerState.ViewingResults tgt ps (if scroll > 0 then scroll - 1 else scroll)
  | s => s

/-- `Scanner::next`: moves the selection down. -/
def next : ScannerState → ScannerState
  | ScannerState.SelectingScanType selected =>
    ScannerState.SelectingScanType ((selected + 1) % ScanType.all.length)
  | ScannerState.SelectingOptions ty tgt selected sd stf cp =>
    ScannerState.SelectingOptions ty tgt
      ((selected + 1) % ScanOption.all.length) sd stf cp
  | ScannerState.ViewingResults tgt ps scroll =>
    ScannerState.ViewingResults tgt ps
      (if scroll < ps.length - 1 then scroll + 1 else scroll)
  | s => s

/-- `Scanner::confirm_scan_type`.  The Rust code indexes
`ScanType::all()[selected]`; on every reachable state `selected` is in
bounds, and the model totalizes the lookup with a default. -/
def confirm_scan_type : ScannerState → ScannerState
  | ScannerState.SelectingScanType selected =>
    ScannerState.EnteringTarget (ScanType.all.getD selected ScanType.QuickScan) []
  | s => s

/-- `Scanner::handle_char`: appends to the target input. -/
def handle_char (c : Char) : ScannerState → ScannerState
  | ScannerState.EnteringTarget ty input => ScannerState.EnteringTarget ty (input ++ [c])
  | s => s

/-- `Scanner::handle_backspace`: pops from the target input. -/
def handle_backspace : ScannerState → ScannerState
  | ScannerState.EnteringTarget ty input => ScannerState.EnteringTarget ty input.dropLast
  | s => s

/-- `Scanner::advance_to_options`: trims and validates the target, then
moves to port-range entry (CustomRange) or to the options screen.  The
abstracted alphanumeric table is instantiated with the ASCII stand-in
here; the reachability invariant below is insensitive to the instance
(both validation outcomes are covered). -/
def advance_to_options : ScannerState → ScannerState
  | ScannerState.EnteringTarget ty input =>
    match validate_target Char.isAlphanum (trimCh input) with
    | Except.error e => ScannerState.Error e
    | Except.ok _ =>
      if ty = ScanType.CustomRange then
        ScannerState.EnteringPortRange (trimCh input) []
      else
        ScannerState.SelectingOptions ty (trimCh input) 0 false false none
  | s => s

/-- `Scanner::advance_from_port_range`: parses the custom range and moves
to the options screen carrying the parsed ports. -/
def advance_from_port_range : ScannerState → ScannerState
  | ScannerState.EnteringPortRange target input =>
    match parse_port_range input with
    | Except.ok ports =>
      ScannerState.SelectingOptions ScanType.CustomRange target 0 false false (some ports)
    | Except.error e => ScannerState.Error e
  | s => s

/-- `Scanner::handle_port_range_char`: only digits, comma, hyphen and
space are accepted. -/
def handle_port_range_char (c : Char) : ScannerState → ScannerState
  | ScannerState.EnteringPortRange target input =>
    if c.isDigit || c = ',' || c = '-' || c = ' ' then
      ScannerState.EnteringPortRange target (input ++ [c])
    else ScannerState.EnteringPortRange target input
  | s => s

/-- `Scanner::handle_port_range_backspace`. -/
def handle_port_range_backspace : ScannerState → ScannerState
  | ScannerState.EnteringPortRange target input =>
    ScannerState.EnteringPortRange target input.dropLast
  | s => s

/-- `Scanner::toggle_option`: flips the selected option.  As in
`confirm_scan_type`, the in-bounds index lookup is totalized. -/
def toggle_option : ScannerState → ScannerState
  | ScannerState.SelectingOptions ty tgt selected sd stf cp =>
    match ScanOption.all.getD selected ScanOption.ServiceDetection with
    | ScanOption.ServiceDetection => ScannerState.SelectingOptions ty tgt selected (!sd) stf cp
    | ScanOption.SaveToFile => ScannerState.SelectingOptions ty tgt selected sd (!stf) cp
  | s => s

/-- `Scanner::advance_to_confirmation`. -/
def advance_to_confirmation : ScannerState → ScannerState
  | ScannerState.SelectingOptions ty tgt _ sd stf cp =>
    ScannerState.Confirming ty tgt sd stf cp
  | s => s

/-- `Scanner::go_back`: returns to the previous wizard step. -/
def go_back : ScannerState → ScannerState
  | ScannerState.EnteringTarget ty _ =>
    ScannerState.SelectingScanType ((ScanType.all.findIdx? (· = ty)).getD 0)
  | ScannerState.EnteringPortRange target _ =>
    ScannerState.EnteringTarget ScanType.CustomRange target
  | ScannerState.SelectingOptions ty target _ _ _ _ =>
    if ty = ScanType.CustomRange then
      ScannerState.EnteringPortRange target []
    else
      ScannerState.EnteringTarget ty []
  | ScannerState.Confirming ty target sd stf cp =>
    ScannerState.SelectingOptions ty target 0 sd stf cp
  | s => s

/-- Oracles for the runtime environment: hostname resolution
(`ToSocketAddrs`, `none` covering both resolver errors and empty results),
socket-address construction, TCP connection attempts, and whether the file
creation and writes of `save_results` succeed. -/
structure NetEnv where
  resolveHost : Str → Option Str
  sockAddr : Str → Nat → Bool
  connect : Str → Nat → Bool
  saveOk : Bool

/-- `Scanner::resolve_target`: an IP literal resolves to itself (the model
keeps the literal text; Rust re-displays the parsed address), otherwise
the resolver oracle is consulted. -/
def resolve_target (env : NetEnv) (target : Str) : Except String Str :=
  if IpAddr.is_ip_addr target then Except.ok target
  else
    match env.resolveHost target with
    | some ip => Except.ok ip
    | none => Except.error ("Failed to resolve hostname: " ++ String.mk target)

/-- Writes a new progress value into a `Scanning` state, as the loop in
`Scanner::perform_scan` does through `&mut self.state`. -/
def setProgress (st : ScannerState) (n : Nat) : ScannerState :=
  match st with
  | ScannerState.Scanning ty tgt _ total sd stf cp =>
    ScannerState.Scanning ty tgt n total sd stf cp
  | s => s

/-- The `(progress, total)` pair carried by a `Scanning` state, if any. -/
def progressPairs (st : ScannerState) : List (Nat × Nat) :=
  match st with
  | ScannerState.Scanning _ _ progress total _ _ _ => [(progress, total)]
  | _ => []

/-- The probe loop of `Scanner::perform_scan`: for each port (with its
index), write `progress = idx + 1` into the state, record the written
`(progress, total)` pair, and record the port as open when the socket
address parses and the connection attempt succeeds. -/
def scan_loop (env : NetEnv) (ip : Str) (sd : Bool) :
    List Nat → Nat → ScannerState → List PortInfo → List (Nat × Nat) →
    ScannerState × List PortInfo × List (Nat × Nat)
  | [], _, st, acc, tr => (st, acc, tr)
  | port :: rest, idx, st, acc, tr =>
    let st' := setProgress st (idx + 1)
    let tr' := tr ++ progressPairs st'
    let acc' :=
      if env.sockAddr ip port && env.connect ip port then
        acc ++ [{ port := port,
                  service := if sd then detect_service port else none,
                  state := PortState.Open }]
      else acc
    scan_loop env ip sd rest (idx + 1) st' acc' tr'

/-- `Scanner::perform_scan`: resolves the target, then probes every port
in order.  Returns the final mutated state, the result, and the trace of
progress pairs written into the `Scanning` state. -/
def perform_scan (env : NetEnv) (st : ScannerState) (target : Str)
    (ports : List Nat) (sd : Bool) :
    ScannerState × Except String (List PortInfo) × List (Nat × Nat) :=
  match resolve_target env target with
  | Except.error e => (st, Except.error e, [])
  | Except.ok ip =>
    match scan_loop env ip sd ports 0 st [] [] with
    | (st', acc, tr) => (st', Except.ok acc, tr)

/-- `Scanner::execute_scan`: from `Confirming`, scans the custom ports if
present (otherwise the scan type's default list), then settles into
`ViewingResults`, `Success`, or `Error`; any other state is left
unchanged.  The returned list is the trace of progress pairs. -/
def execute_scan (env : NetEnv) (st : ScannerState) :
    ScannerState × List (Nat × Nat) :=
  match st with
  | ScannerState.Confirming ty target sd stf cp =>
    match perform_scan env
        (ScannerState.Scanning ty target 0 (cp.getD (ScanType.get_ports ty)).length
          sd stf cp)
        target (cp.getD (ScanType.get_ports ty)) sd with
    | (_, Except.ok open_ports, tr) =>
      if stf && !env.saveOk then
        (ScannerState.Error "Scan completed but failed to save results: write error", tr)
      else if open_ports.isEmpty then
        (ScannerState.Success ("Scan completed. No open ports found on " ++ String.mk target), tr)
      else
        (ScannerState.ViewingResults target open_ports 0, tr)
    | (_, Except.error e, tr) => (ScannerState.Error ("Scan failed: " ++ e), tr)
  | s => (s, [])

/-- The filename built by `Scanner::save_results`:
`format!("scan_{}_{}.txt", target.replace(".", "_"), timestamp)`. -/
def save_filename (target : Str) (timestamp : String) : String :=
  "scan_" ++ String.mk (target.map fun c => if c = '.' then '_' else c) ++
    "_" ++ timestamp ++ ".txt"

/-- Rust `{:<8}` formatting: left-aligned, space-padded to width 8. -/
def padLeft8 (s : String) : String :=
  s ++ String.mk (List.replicate (8 - s.length) ' ')

/-- One open-port line of the report:
`writeln!(file, "{:<8} {:<8} {}", port, "open", service)` with service
`"unknown"` when none was detected. -/
def port_line (pi : PortInfo) : String :=
  padLeft8 (toString pi.port) ++ " " ++ padLeft8 "open" ++ " " ++
    pi.service.getD "unknown"

/-- The lines written by `Scanner::save_results`, one element per
`writeln!` call; the scan-time text is a parameter standing for the
`chrono::Local::now()` call. -/
def save_lines (target : Str) (scanTime : String) (results : List PortInfo) :
    List String :=
  ["Port Scan Results",
   "==================",
   "Target: " ++ String.mk target,
   "Scan Time: " ++ scanTime,
   "Open Ports: " ++ toString results.length ++ "\n"] ++
  (if results.isEmpty then ["No open ports found."]
   else ["PORT     STATE    SERVICE", "----     -----    -------"] ++
     results.map port_line)

/-- The public mutating operations of `Scanner`, each with the inputs it
consumes; `executeScan` carries the I/O oracles. -/
inductive Op where
  | prev
  | next
  | confirmScanType
  | handleChar (c : Char)
  | handleBackspace
  | advanceToOptions
  | advanceFromPortRange
  | handlePortRangeChar (c : Char)
  | handlePortRangeBackspace
  | toggleOption
  | advanceToConfirmation
  | executeScan (env : NetEnv)
  | goBack

/-- Applies one public operation to the scanner state. -/
def applyOp : Op → ScannerState → ScannerState
  | Op.prev, s => previous s
  | Op.next, s => next s
  | Op.confirmScanType, s => confirm_scan_type s
  | Op.handleChar c, s => handle_char c s
  | Op.handleBackspace, s => handle_backspace s
  | Op.advanceToOptions, s => advance_to_options s
  | Op.advanceFromPortRange, s => advance_from_port_range s
  | Op.handlePortRangeChar c, s => handle_port_range_char c s
  | Op.handlePortRangeBackspace, s => handle_port_range_backspace s
  | Op.toggleOption, s => toggle_option s
  | Op.advanceToConfirmation, s => advance_to_confirmation s
  | Op.executeScan env, s => (execute_scan env s).1
  | Op.goBack, s => go_back s

/-- States reachable from `Scanner::new()` through the public operations. -/
inductive Reachable : ScannerState → Prop where
  | init : Reachable (ScannerState.SelectingScanType 0)
  | step {s : ScannerState} (h : Reachable s) (op : Op) : Reachable (applyOp op s)

/-- The port list `execute_scan` scans from a `Confirming` state:
`custom_ports.clone().unwrap_or_else(|| scan_type.get_ports())`. -/
def portsOf (ty : ScanType) (cp : Option (List Nat)) : List Nat :=
  cp.getD (ScanType.get_ports ty)

/-- `perform_scan` as invoked by `execute_scan`: on the freshly-created
`Scanning` state with progress 0 and total the port-list length. -/
def scanRun (env : NetEnv) (ty : ScanType) (target : Str) (ports : List Nat)
    (sd stf : Bool) (cp : Option (List Nat)) :
    ScannerState × Except String (List PortInfo) × List (Nat × Nat) :=
  perform_scan env (ScannerState.Scanning ty target 0 ports.length sd stf cp)
    target ports sd

/-- The open ports the probe loop collects: the connectable ports in
probe order, tagged with their detected service when enabled. -/
def collectOpens (env : NetEnv) (ip : Str) (sd : Bool) (ports : List Nat) :
    List PortInfo :=
  (ports.filter fun p => env.sockAddr ip p && env.connect ip p).map fun p =>
    { port := p, service := if sd then detect_service p else none,
      state := PortState.Open }

/-- The custom-ports invariant of claim C10: in every option-carrying
state, `custom_ports` is `some` exactly when the scan type is CustomRange,
and any stored list is nonempty (it came from a successful parse). -/
def cpInv : ScannerState → Prop
  | ScannerState.SelectingOptions ty _ _ _ _ cp =>
    (cp.isSome ↔ ty = ScanType.CustomRange) ∧ ∀ l, cp = some l → l ≠ []
  | ScannerState.Confirming ty _ _ _ cp =>
    (cp.isSome ↔ ty = ScanType.CustomRange) ∧ ∀ l, cp = some l → l ≠ []
  | ScannerState.Scanning ty _ _ _ _ _ cp =>
    (cp.isSome ↔ ty = ScanType.CustomRange) ∧ ∀ l, cp = some l → l ≠ []
  | _ => True

/-- A test environment: every address parses and connects, saving fails. -/
def envOpenNoSave : NetEnv :=
  { resolveHost := fun _ => none,
    sockAddr := fun _ _ => true,
    connect := fun _ _ => true,
    saveOk := false }

/-- A test environment: no port connects, saving succeeds. -/
def envNoOpen : NetEnv :=
  { resolveHost := fun _ => none,
    sockAddr := fun _ _ => true,
    connect := fun _ _ => false,
    saveOk := true }

/-- The QuickScan ports as reported open by `envOpenNoSave`, without
service detection. -/
def openQuick : List PortInfo :=
  (ScanType.get_ports ScanType.QuickScan).map fun p =>
    { port := p, service := none, state := PortState.Open }

end Scanner

/-- CLAIM C1 (counterexample): the claim that `get_ports()` is sorted in
strictly ascending order for every fixed scan type is false: the
StandardScan list has 8443 at index 20 followed by 20 at index 21, so it
is not sorted ascending. -/
theorem standardScan_not_sorted :
    ¬ (∀ t ∈ fixedScanTypes, List.Pairwise (· < ·) (ScanType.get_ports t)) := by
  intro h
  have hs := h ScanType.StandardScan (by simp [fixedScanTypes])
  revert hs
  decide

/-- CLAIM C1 (amended): the QuickScan and FullScan port lists are sorted in
strictly ascending order with no duplicates; the StandardScan list contains
no duplicates but is not sorted ascending, so StandardScan ports are probed
in a fixed deterministic order that is not the ascending order. -/
theorem get_ports_order :
    List.Pairwise (· < ·) (ScanType.get_ports ScanType.QuickScan) ∧
    List.Pairwise (· < ·) (ScanType.get_ports ScanType.FullScan) ∧
    (ScanType.get_ports ScanType.StandardScan).Nodup ∧
    ¬ List.Pairwise (· < ·) (ScanType.get_ports ScanType.StandardScan) := by
  refine ⟨by decide, ?_, by decide, by decide⟩
  exact List.pairwise_lt_range' 1 65535 1 (by omega)

/-- CLAIM C4: `get_ports` is a pure function (hence deterministic);
QuickScan yields exactly the fixed 14-port list, and FullScan has length
65535 with `i`-th element `i + 1`, i.e. it is exactly the sequence
1, 2, ..., 65535. -/
theorem get_ports_deterministic_and_full :
    ScanType.get_ports ScanType.QuickScan =
      [21, 22, 23, 25, 53, 80, 110, 143, 443, 3306, 3389, 5432, 8080, 8443] ∧
    (ScanType.get_ports ScanType.QuickScan).length = 14 ∧
    (ScanType.get_ports ScanType.FullScan).length = 65535 ∧
    (∀ i, i < 65535 → (ScanType.get_ports ScanType.FullScan)[i]? = some (i + 1)) := by
  refine ⟨rfl, rfl, List.length_range' 1 1 65535, ?_⟩
  intro i hi
  have h := List.getElem?_range' 1 1 hi
  simpa [ScanType.get_ports, Nat.add_comm] using h

/-- Witness for C4: instantiating the element formula at index 0 gives the
first FullScan port, 1. -/
theorem get_ports_deterministic_and_full_witness :
    (ScanType.get_ports ScanType.FullScan)[0]? = some 1 :=
  get_ports_deterministic_and_full.2.2.2 0 (by decide)

namespace Scanner

open StrOps

theorem parseDigitsU16_le {l : Str} {v : Nat} (h : parseDigitsU16 l = some v) :
    v ≤ 65535 := by
  unfold parseDigitsU16 at h
  split at h
  · split at h
    · simp only [Option.some.injEq] at h
      omega
    · exact absurd h (by simp)
  · exact absurd h (by simp)

theorem parseU16_le {l : Str} {v : Nat} (h : parseU16 l = some v) : v ≤ 65535 := by
  unfold parseU16 at h
  split at h
  · exact parseDigitsU16_le h
  · exact parseDigitsU16_le h

theorem push_step_good {acc : List Nat} {p : Nat}
    (h : goodPorts acc) (h1 : 1 ≤ p) (h2 : p ≤ 65535) :
    goodPorts (if p ∈ acc then acc else acc ++ [p]) := by
  by_cases hp : p ∈ acc
  · simpa [hp] using h
  · obtain ⟨hnd, hb⟩ := h
    simp only [hp, if_false]
    constructor
    · rw [List.nodup_append]
      refine ⟨hnd, List.nodup_singleton p, ?_⟩
      intro a ha hamem
      simp only [List.mem_singleton] at hamem
      subst hamem
      exact hp ha
    · intro x hx
      rcases List.mem_append.mp hx with hx | hx
      · exact hb x hx
      · simp only [List.mem_singleton] at hx
        subst hx
        exact ⟨h1, h2⟩

theorem pushRange_good {ports : List Nat} {start stop : Nat}
    (h : goodPorts ports) (h1 : 1 ≤ start) (h2 : stop ≤ 65535) :
    goodPorts (pushRange ports start stop) := by
  unfold pushRange
  refine List.foldlRecOn _ _ _ h ?_
  intro acc hacc a ha
  rw [List.mem_range'_1] at ha
  exact push_step_good hacc (by omega) (by omega)

theorem push_step_ne_nil (acc : List Nat) (p : Nat) :
    (if p ∈ acc then acc else acc ++ [p]) ≠ [] := by
  split
  · intro hc; subst hc; simp_all
  · simp

theorem pushRange_ne_nil {ports : List Nat} {start stop : Nat}
    (h : start ≤ stop) : pushRange ports start stop ≠ [] := by
  unfold pushRange
  have hcount : stop + 1 - start = (stop - start) + 1 := by omega
  rw [hcount, List.range'_succ, List.foldl_cons]
  exact List.foldlRecOn (motive := fun r => r ≠ []) _ _ _
    (push_step_ne_nil ports start) (fun acc _ a _ => push_step_ne_nil acc a)

theorem processTrimmed_good {ports res : List Nat} {p : Str}
    (h : goodPorts ports) (hok : processTrimmed ports p = Except.ok res) :
    goodPorts res := by
  unfold processTrimmed at hok
  split at hok
  · split at hok
    · rename_i a b
      split at hok
      · rename_i start stop hstart hstop
        split at hok
        · exact absurd hok (by simp)
        · split at hok
          · exact absurd hok (by simp)
          · simp only [Except.ok.injEq] at hok
            subst hok
            exact pushRange_good h (by omega) (parseU16_le hstop)
      · exact absurd hok (by simp)
    · exact absurd hok (by simp)
  · split at hok
    · rename_i port hport
      split at hok
      · exact absurd hok (by simp)
      · simp only [Except.ok.injEq] at hok
        subst hok
        exact push_step_good h (by omega) (parseU16_le hport)
    · exact absurd hok (by simp)

theorem processPart_good {ports res : List Nat} {part : Str}
    (h : goodPorts ports) (hok : processPart ports part = Except.ok res) :
    goodPorts res :=
  processTrimmed_good h hok

theorem processTrimmed_ne_nil {ports res : List Nat} {p : Str}
    (hok : processTrimmed ports p = Except.ok res) : res ≠ [] := by
  unfold processTrimmed at hok
  split at hok
  · split at hok
    · split at hok
      · rename_i start stop hstart hstop
        split at hok
        · exact absurd hok (by simp)
        · split at hok
          · exact absurd hok (by simp)
          · simp only [Except.ok.injEq] at hok
            subst hok
            exact pushRange_ne_nil (by omega)
      · exact absurd hok (by simp)
    · exact absurd hok (by simp)
  · split at hok
    · split at hok
      · exact absurd hok (by simp)
      · simp only [Except.ok.injEq] at hok
        subst hok
        exact push_step_ne_nil _ _
    · exact absurd hok (by simp)

theorem processPart_ne_nil {ports res : List Nat} {part : Str}
    (hok : processPart ports part = Except.ok res) : res ≠ [] :=
  processTrimmed_ne_nil hok

theorem except_foldlM_cons {σ α : Type} (f : σ → α → Except String σ)
    (b : σ) (a : α) (l : List α) :
    List.foldlM f b (a :: l) =
      match f b a with
      | Except.error e => Except.error e
      | Except.ok r => List.foldlM f r l := by
  rw [List.foldlM_cons]
  cases f b a <;> rfl

theorem foldlM_good {res : List Nat} :
    ∀ (parts : List Str) (ports : List Nat), goodPorts ports →
      List.foldlM processPart ports parts = Except.ok res → goodPorts res := by
  intro parts
  induction parts with
  | nil =>
    intro ports h hok
    simp only [List.foldlM_nil] at hok
    cases hok
    exact h
  | cons a l ih =>
    intro ports h hok
    rw [except_foldlM_cons] at hok
    revert hok
    split
    · intro hok; exact absurd hok (by simp)
    · intro hok
      exact ih _ (processPart_good h ‹_›) hok

theorem foldlM_ne_nil {res : List Nat} :
    ∀ (parts : List Str) (ports : List Nat),
      List.foldlM processPart ports parts = Except.ok res →
      (ports ≠ [] ∨ parts ≠ []) → res ≠ [] := by
  intro parts
  induction parts with
  | nil =>
    intro ports hok hne
    simp only [List.foldlM_nil] at hok
    cases hok
    rcases hne with h | h
    · exact h
    · exact absurd rfl h
  | cons a l ih =>
    intro ports hok _
    rw [except_foldlM_cons] at hok
    revert hok
    split
    · intro hok; exact absurd hok (by simp)
    · intro hok
      exact ih _ hok (Or.inl (processPart_ne_nil ‹_›))

end Scanner

namespace Scanner

open StrOps

theorem exceptIsOk_error {α : Type} (e : String) :
    (Except.error e : Except String α).isOk = false := rfl

theorem exceptIsOk_ok {α : Type} (a : α) :
    (Except.ok a : Except String α).isOk = true := rfl

theorem processPart_isOk (ports : List Nat) (part : Str) :
    (processPart ports part).isOk = !Claims.tokenInvalid part := by
  unfold processPart processTrimmed Claims.tokenInvalid Claims.malformedRange
    Claims.nonNumericToken Claims.zeroPort Claims.startGtEnd
  by_cases hc : (trimCh part).contains '-'
  · simp only [hc, if_true, Bool.true_and]
    rcases hsp : splitCh '-' (trimCh part) with _ | ⟨a, rest⟩
    · simp [hsp, exceptIsOk_error]
    · rcases rest with _ | ⟨b, rest2⟩
      · simp [hsp, exceptIsOk_error]
      · rcases rest2 with _ | ⟨c, rest3⟩
        · rcases hpa : parseU16 (trimCh a) with _ | s
          · simp [hsp, hpa, exceptIsOk_error]
          · rcases hpb : parseU16 (trimCh b) with _ | e
            · simp [hsp, hpa, hpb, exceptIsOk_error]
            · by_cases hse : s > e
              · simp [hsp, hpa, hpb, hse, exceptIsOk_error]
              · by_cases hs0 : s = 0
                · simp [hsp, hpa, hpb, hse, hs0, exceptIsOk_error]
                · have he0 : e ≠ 0 := by omega
                  simp [hsp, hpa, hpb, hse, hs0, he0, exceptIsOk_ok]
        · simp [hsp, exceptIsOk_error]
  · simp only [hc, if_false, Bool.false_and]
    rcases hpp : parseU16 (trimCh part) with _ | v
    · simp [hpp, exceptIsOk_error]
    · by_cases hv : v = 0
      · simp [hpp, hv, exceptIsOk_error]
      · simp [hpp, hv, exceptIsOk_ok]

theorem foldlM_isOk (parts : List Str) : ∀ ports : List Nat,
    (List.foldlM processPart ports parts).isOk =
      parts.all fun part => !Claims.tokenInvalid part := by
  induction parts with
  | nil =>
    intro ports
    rfl
  | cons a l ih =>
    intro ports
    rw [except_foldlM_cons]
    have hiso := processPart_isOk ports a
    cases hpa : processPart ports a with
    | error e =>
      rw [hpa, exceptIsOk_error] at hiso
      have ht : Claims.tokenInvalid a = true := by
        cases hta : Claims.tokenInvalid a
        · rw [hta] at hiso
          simp at hiso
        · rfl
      simp [List.all_cons, ht, exceptIsOk_error]
    | ok r =>
      rw [hpa, exceptIsOk_ok] at hiso
      have ht : Claims.tokenInvalid a = false := by
        cases hta : Claims.tokenInvalid a
        · rfl
        · rw [hta] at hiso
          simp at hiso
      simp [List.all_cons, ht, ih r]

theorem splitCh_shape (sep : Char) (l : Str) :
    ∃ g gs, StrOps.splitCh sep l = g :: gs := by
  induction l with
  | nil => exact ⟨[], [], rfl⟩
  | cons c rest ih =>
    obtain ⟨g, gs, hg⟩ := ih
    by_cases hc : c = sep
    · exact ⟨[], StrOps.splitCh sep rest, by simp [StrOps.splitCh, hc]⟩
    · exact ⟨c :: g, gs, by simp [StrOps.splitCh, hc, hg]⟩

theorem except_error_exists {ε α : Type} (x : Except ε α) :
    (∃ e, x = Except.error e) ↔ x.isOk = false := by
  cases x <;> simp [Except.isOk, Except.toBool]

theorem parse_port_range_isOk (input : Str) :
    (Scanner.parse_port_range input).isOk =
      (StrOps.splitCh ',' input).all fun part => !Claims.tokenInvalid part := by
  unfold parse_port_range
  rw [← foldlM_isOk _ []]
  cases hf : List.foldlM processPart [] (StrOps.splitCh ',' input) with
  | error e => simp
  | ok l =>
    have hne : l ≠ [] := by
      apply foldlM_ne_nil _ _ hf
      right
      obtain ⟨g, gs, hg⟩ := splitCh_shape ',' input
      simp [hg]
    cases l with
    | nil => exact absurd rfl hne
    | cons x xs => simp [List.isEmpty_cons, exceptIsOk_ok]

end Scanner

/-- CLAIM C3: `parse_port_range` returns an error exactly when the
expression contains an invalid token: a range token not made of exactly two
hyphen-separated parts, a token or endpoint that does not parse as a `u16`
port number, a port equal to 0, or a range with start > end.  An expression
yielding an empty port set can only be one with an invalid token (every
valid token contributes at least one port), as the empty expression — whose
sole token fails the numeric parse — illustrates.  In particular "0-10" and
"100-50" both fail. -/
theorem parse_port_range_error_characterization (input : Str) :
    ((∃ e, Scanner.parse_port_range input = Except.error e) ↔
      ∃ part ∈ StrOps.splitCh ',' input,
        (Claims.malformedRange part = true ∨ Claims.nonNumericToken part = true ∨
         Claims.zeroPort part = true ∨ Claims.startGtEnd part = true)) ∧
    (∃ e, Scanner.parse_port_range ("0-10".data) = Except.error e) ∧
    (∃ e, Scanner.parse_port_range ("100-50".data) = Except.error e) ∧
    (∃ e, Scanner.parse_port_range ([] : Str) = Except.error e) := by
  refine ⟨?_, ?_, ?_, ?_⟩
  · rw [Scanner.except_error_exists, Scanner.parse_port_range_isOk]
    simp only [List.all_eq_false, Bool.not_eq_true', Bool.not_eq_false,
      Claims.tokenInvalid, Bool.or_eq_true, or_assoc]
  · exact (Scanner.except_error_exists _).mpr (by rfl)
  · exact (Scanner.except_error_exists _).mpr (by rfl)
  · exact (Scanner.except_error_exists _).mpr (by rfl)

theorem validateLabels_isOk (isAlnum : Char → Bool) (ls : List Str) :
    (Scanner.validateLabels isAlnum ls).isOk =
      ls.all fun p => !Claims.badLabel isAlnum p := by
  induction ls with
  | nil => rfl
  | cons p rest ih =>
    cases hE : p.isEmpty <;> cases hL : decide (StrOps.utf8Len p > 63) <;>
      cases hB : (p.all fun c => isAlnum c || c = '-') <;>
      cases hH : (p.head? == some '-') <;> cases hG : (p.getLast? == some '-') <;>
      simp [Scanner.validateLabels, Claims.badLabel, List.all_cons, hE, hL, hB, hH,
        hG, ih, Scanner.exceptIsOk_error, Scanner.exceptIsOk_ok]

set_option maxRecDepth 8000 in
/-- CLAIM C5: for every alphanumeric table `isAlnum` — Rust's Unicode
`char::is_alphanumeric` being one instance — `validate_target` accepts
every string that the IP-literal parser accepts, without applying
hostname rules, and it rejects exactly the empty string, the non-IP
strings longer than 253 bytes, and the non-IP strings with a
dot-separated label that is empty, longer than 63 bytes, contains a
character other than alphanumerics and hyphen, or starts or ends with a
hyphen.  The concrete cases are table-independent: "192.168.1.1" and
"::1" pass as IP literals before any label check, while "-bad.com"
(leading hyphen) and a 300-character hostname (length bound) fail under
every table. -/
theorem validate_target_characterization : ∀ isAlnum : Char → Bool,
    (∀ t : Str, IpAddr.is_ip_addr t = true →
      Scanner.validate_target isAlnum t = Except.ok ()) ∧
    (∀ t : Str, (∃ e, Scanner.validate_target isAlnum t = Except.error e) ↔
      (t = [] ∨ (IpAddr.is_ip_addr t = false ∧
        (StrOps.utf8Len t > 253 ∨
          ∃ p ∈ StrOps.splitCh '.' t, Claims.badLabel isAlnum p = true)))) ∧
    Scanner.validate_target isAlnum ("192.168.1.1".data) = Except.ok () ∧
    Scanner.validate_target isAlnum ("::1".data) = Except.ok () ∧
    (∃ e, Scanner.validate_target isAlnum ("-bad.com".data) = Except.error e) ∧
    (∃ e, Scanner.validate_target isAlnum (List.replicate 300 'a') =
      Except.error e) := by
  intro isAlnum
  have herr : ∀ t : Str,
      (∃ e, Scanner.validate_target isAlnum t = Except.error e) ↔
        (t = [] ∨ (IpAddr.is_ip_addr t = false ∧
          (StrOps.utf8Len t > 253 ∨
            ∃ p ∈ StrOps.splitCh '.' t, Claims.badLabel isAlnum p = true))) := by
    intro t
    cases t with
    | nil =>
      constructor
      · intro _
        exact Or.inl rfl
      · intro _
        exact ⟨"Target cannot be empty", rfl⟩
    | cons c cs =>
      rw [Scanner.except_error_exists]
      unfold Scanner.validate_target
      cases hipt : IpAddr.is_ip_addr (c :: cs) with
      | true => simp [List.isEmpty_cons, Scanner.exceptIsOk_ok]
      | false =>
        by_cases hlen : StrOps.utf8Len (c :: cs) > 253
        · simp [List.isEmpty_cons, hlen, Scanner.exceptIsOk_error]
        · simp only [List.isEmpty_cons, Bool.false_eq_true, if_false, hlen,
            decide_False, validateLabels_isOk, List.all_eq_false,
            Bool.not_eq_true', Bool.not_eq_false]
          simp [hlen]
  refine ⟨?_, herr, rfl, rfl, ?_, ?_⟩
  · intro t hipt
    cases t with
    | nil => exact absurd hipt (by decide)
    | cons c cs =>
      unfold Scanner.validate_target
      simp [List.isEmpty_cons, hipt]
  · refine (herr _).mpr (Or.inr ⟨by decide, Or.inr ⟨"-bad".data, by decide, ?_⟩⟩)
    have h1 : (("-bad".data).head? == some '-') = true := by decide
    simp [Claims.badLabel, h1]
  · exact (herr _).mpr (Or.inr ⟨by decide, Or.inl (by decide)⟩)

/-- Witness for C5: applying the IP-literal clause, at the ASCII instance
of the table, to the concrete IP "10.0.0.1". -/
theorem validate_target_characterization_witness :
    Scanner.validate_target Char.isAlphanum ("10.0.0.1".data) = Except.ok () :=
  (validate_target_characterization Char.isAlphanum).1 ("10.0.0.1".data)
    (by decide)

/-- CLAIM C2: for every expression on which `parse_port_range` succeeds,
the returned port list is sorted ascending, contains no duplicates, and
every element lies in [1, 65535]; and the concrete expression
"1-3,2,5-5" parses to [1, 2, 3, 5]. -/
theorem parse_port_range_sorted_nodup_bounded (input : Str) (ports : List Nat)
    (h : Scanner.parse_port_range input = Except.ok ports) :
    List.Sorted (· ≤ ·) ports ∧ ports.Nodup ∧
    (∀ x ∈ ports, 1 ≤ x ∧ x ≤ 65535) ∧
    Scanner.parse_port_range ("1-3,2,5-5".data) = Except.ok [1, 2, 3, 5] := by
  unfold Scanner.parse_port_range at h
  split at h
  · exact absurd h (by simp)
  · rename_i l hf
    split at h
    · exact absurd h (by simp)
    · simp only [Except.ok.injEq] at h
      subst h
      have hgood : Scanner.goodPorts l :=
        Scanner.foldlM_good _ _ ⟨List.nodup_nil, by simp⟩ hf
      obtain ⟨hnd, hb⟩ := hgood
      have hperm := List.perm_insertionSort (· ≤ ·) l
      refine ⟨List.sorted_insertionSort _ _, hperm.symm.nodup hnd, ?_, by rfl⟩
      intro x hx
      exact hb x (hperm.mem_iff.mp hx)

/-- Witness for C2: the theorem applied to the concrete expression
"1-3,2,5-5", whose parse succeeds with [1, 2, 3, 5]. -/
theorem parse_port_range_sorted_nodup_bounded_witness :
    List.Sorted (· ≤ ·) [1, 2, 3, 5] ∧ ([1, 2, 3, 5] : List Nat).Nodup ∧
    (∀ x ∈ ([1, 2, 3, 5] : List Nat), 1 ≤ x ∧ x ≤ 65535) ∧
    Scanner.parse_port_range ("1-3,2,5-5".data) = Except.ok [1, 2, 3, 5] :=
  parse_port_range_sorted_nodup_bounded ("1-3,2,5-5".data) [1, 2, 3, 5] (by rfl)

/-- CLAIM C7: back-navigation is asymmetric about preserved input: going
back from `EnteringPortRange` returns to `EnteringTarget` with the input
field set to the previously entered target text, while going back from
`SelectingOptions` returns to `EnteringPortRange` (for CustomRange) or to
`EnteringTarget` (otherwise) with the input field reset to empty. -/
theorem go_back_asymmetry :
    (∀ target input : Str,
      Scanner.go_back (ScannerState.EnteringPortRange target input) =
        ScannerState.EnteringTarget ScanType.CustomRange target) ∧
    (∀ (ty : ScanType) (target : Str) (selected : Nat) (sd stf : Bool)
        (cp : Option (List Nat)),
      Scanner.go_back (ScannerState.SelectingOptions ty target selected sd stf cp) =
        (if ty = ScanType.CustomRange then ScannerState.EnteringPortRange target []
         else ScannerState.EnteringTarget ty [])) :=
  ⟨fun _ _ => rfl, fun _ _ _ _ _ _ => rfl⟩

/-- CLAIM C6 (counterexample): the claim that a scan that probes
successfully and collects at least one open port always ends in
`ViewingResults` is false: with save-to-file enabled and the file write
failing, probing succeeds on all 14 QuickScan ports yet the final state is
`Error`. -/
theorem execute_scan_claim_counterexample :
    (Scanner.scanRun Scanner.envOpenNoSave ScanType.QuickScan ("1.2.3.4".data)
        (ScanType.get_ports ScanType.QuickScan) false true none).2.1 =
      Except.ok Scanner.openQuick ∧
    Scanner.openQuick ≠ [] ∧
    (Scanner.execute_scan Scanner.envOpenNoSave
        (ScannerState.Confirming ScanType.QuickScan ("1.2.3.4".data) false true none)).1 =
      ScannerState.Error "Scan completed but failed to save results: write error" :=
  ⟨rfl, by decide, rfl⟩

/-- CLAIM C6 (amended): from `Confirming`, the final state of
`execute_scan` is determined by the scan outcome and the save outcome: if
probing succeeds and saving was requested but fails, the state is `Error`;
otherwise, with at least one open port the state is `ViewingResults`
carrying those ports, and with zero open ports it is `Success`; if probing
fails (resolution failure) the state is `Error`; any non-`Confirming`
state is left unchanged. -/
theorem execute_scan_transitions (env : Scanner.NetEnv) (ty : ScanType)
    (target : Str) (sd stf : Bool) (cp : Option (List Nat)) :
    (∀ st2 opens tr,
      Scanner.scanRun env ty target (Scanner.portsOf ty cp) sd stf cp =
          (st2, Except.ok opens, tr) →
      (Scanner.execute_scan env (ScannerState.Confirming ty target sd stf cp)).1 =
        (if stf && !env.saveOk then
          ScannerState.Error "Scan completed but failed to save results: write error"
         else if opens.isEmpty then
          ScannerState.Success ("Scan completed. No open ports found on " ++ String.mk target)
         else ScannerState.ViewingResults target opens 0)) ∧
    (∀ st2 e tr,
      Scanner.scanRun env ty target (Scanner.portsOf ty cp) sd stf cp =
          (st2, Except.error e, tr) →
      (Scanner.execute_scan env (ScannerState.Confirming ty target sd stf cp)).1 =
        ScannerState.Error ("Scan failed: " ++ e)) ∧
    (∀ s : ScannerState,
      (∀ ty2 t2 sd2 stf2 cp2, s ≠ ScannerState.Confirming ty2 t2 sd2 stf2 cp2) →
      Scanner.execute_scan env s = (s, [])) := by
  refine ⟨?_, ?_, ?_⟩
  · intro st2 opens tr h
    have h2 : Scanner.perform_scan env
        (ScannerState.Scanning ty target 0 (cp.getD (ScanType.get_ports ty)).length
          sd stf cp)
        target (cp.getD (ScanType.get_ports ty)) sd = (st2, Except.ok opens, tr) := h
    simp only [Scanner.execute_scan]
    rw [h2]
    by_cases h1 : stf && !env.saveOk
    · simp [h1]
    · by_cases hemp : opens.isEmpty <;> simp [h1, hemp]
  · intro st2 e tr h
    have h2 : Scanner.perform_scan env
        (ScannerState.Scanning ty target 0 (cp.getD (ScanType.get_ports ty)).length
          sd stf cp)
        target (cp.getD (ScanType.get_ports ty)) sd = (st2, Except.error e, tr) := h
    simp only [Scanner.execute_scan]
    rw [h2]
  · intro s hs
    cases s with
    | Confirming ty2 t2 sd2 stf2 cp2 => exact absurd rfl (hs ty2 t2 sd2 stf2 cp2)
    | _ => rfl

/-- Witness for C6 (amended): in the no-open-ports environment, scanning
the QuickScan list of "1.2.3.4" ends in `Success`. -/
theorem execute_scan_transitions_witness :
    (Scanner.execute_scan Scanner.envNoOpen
        (ScannerState.Confirming ScanType.QuickScan ("1.2.3.4".data) false false none)).1 =
      ScannerState.Success ("Scan completed. No open ports found on " ++
        String.mk ("1.2.3.4".data)) := by
  have h := (execute_scan_transitions Scanner.envNoOpen ScanType.QuickScan
      ("1.2.3.4".data) false false none).1
      (ScannerState.Scanning ScanType.QuickScan ("1.2.3.4".data) 14 14 false false none)
      [] ((List.range 14).map fun i => (i + 1, 14)) (by rfl)
  simpa using h

theorem scan_loop_spec (env : Scanner.NetEnv) (ip : Str) (sd : Bool) :
    ∀ (ports : List Nat) (idx : Nat) (ty : ScanType) (tgt : Str) (N : Nat)
      (sd2 stf : Bool) (cp : Option (List Nat)) (acc : List PortInfo)
      (tr : List (Nat × Nat)),
      Scanner.scan_loop env ip sd ports idx
          (ScannerState.Scanning ty tgt idx N sd2 stf cp) acc tr =
        (ScannerState.Scanning ty tgt (idx + ports.length) N sd2 stf cp,
         acc ++ Scanner.collectOpens env ip sd ports,
         tr ++ (List.range' (idx + 1) ports.length).map fun k => (k, N)) := by
  intro ports
  induction ports with
  | nil =>
    intro idx ty tgt N sd2 stf cp acc tr
    simp [Scanner.scan_loop, Scanner.collectOpens]
  | cons p rest ih =>
    intro idx ty tgt N sd2 stf cp acc tr
    simp only [Scanner.scan_loop, Scanner.setProgress, Scanner.progressPairs]
    rw [ih (idx + 1)]
    simp only [List.length_cons]
    rw [List.range'_succ]
    by_cases hop : (env.sockAddr ip p && env.connect ip p) = true <;>
      simp [hop, Scanner.collectOpens, List.filter_cons, List.append_assoc,
        Nat.add_right_comm, Nat.add_assoc]

/-- CLAIM C8: across one run of `perform_scan` over a port list of length
N (as invoked by `execute_scan`: progress 0, total N), when resolution
succeeds the trace of `(progress, total)` pairs written into the
`Scanning` state is exactly (1, N), (2, N), ..., (N, N); hence it is
monotonically non-decreasing in the first component, the total stays
constant at N throughout, and on normal completion it reaches (N, N) and
the final state carries progress N. -/
theorem perform_scan_progress (env : Scanner.NetEnv) (ty : ScanType)
    (target : Str) (ports : List Nat) (sd stf : Bool) (cp : Option (List Nat))
    (ip : Str) (hres : Scanner.resolve_target env target = Except.ok ip) :
    (Scanner.scanRun env ty target ports sd stf cp).2.2 =
      (List.range' 1 ports.length).map (fun k => (k, ports.length)) ∧
    List.Chain' (fun a b => a.1 ≤ b.1)
      (Scanner.scanRun env ty target ports sd stf cp).2.2 ∧
    (∀ pr ∈ (Scanner.scanRun env ty target ports sd stf cp).2.2,
      pr.2 = ports.length) ∧
    (0 < ports.length →
      (Scanner.scanRun env ty target ports sd stf cp).2.2.getLast? =
        some (ports.length, ports.length)) ∧
    (Scanner.scanRun env ty target ports sd stf cp).1 =
      ScannerState.Scanning ty target ports.length ports.length sd stf cp := by
  have hrun : Scanner.scanRun env ty target ports sd stf cp =
      (ScannerState.Scanning ty target (0 + ports.length) ports.length sd stf cp,
       Except.ok ([] ++ Scanner.collectOpens env ip sd ports),
       [] ++ (List.range' (0 + 1) ports.length).map fun k => (k, ports.length)) := by
    simp only [Scanner.scanRun, Scanner.perform_scan, hres]
    rw [scan_loop_spec]
  refine ⟨?_, ?_, ?_, ?_, ?_⟩
  · rw [hrun]
    simp
  · rw [hrun]
    have hp := List.pairwise_lt_range' (0 + 1) ports.length 1 (by omega)
    exact (List.Pairwise.map (fun k => (k, ports.length))
      (fun a b hab => Nat.le_of_lt hab) hp).chain'
  · intro pr hpr
    rw [hrun] at hpr
    simp only [List.nil_append, List.mem_map] at hpr
    obtain ⟨k, _, hk⟩ := hpr
    rw [← hk]
  · intro hpos
    rw [hrun]
    rcases hn : ports.length with _ | m
    · omega
    · simp [List.range'_concat, List.getLast?_concat, Nat.add_comm]
  · rw [hrun]
    simp

/-- Witness for C8: a concrete two-port run whose trace ends at (2, 2). -/
theorem perform_scan_progress_witness :
    (Scanner.scanRun Scanner.envNoOpen ScanType.CustomRange ("1.2.3.4".data)
        [80, 443] false false (some [80, 443])).2.2.getLast? = some (2, 2) := by
  have h := perform_scan_progress Scanner.envNoOpen ScanType.CustomRange
    ("1.2.3.4".data) [80, 443] false false (some [80, 443]) ("1.2.3.4".data)
    (by rfl)
  exact h.2.2.2.1 (by decide)

/-- CLAIM C9 (counterexample): the claim that the filename is built with
every non-alphanumeric character of the target replaced is false: the code
replaces only dots, so for target "a:b" the colon survives in the
filename, while the claim's sanitization would produce an underscore. -/
theorem save_filename_counterexample :
    Scanner.save_filename ("a:b".data) "20240101_000000" =
      "scan_a:b_20240101_000000.txt" ∧
    Claims.sanitizeTarget ("a:b".data) = "a_b".data ∧
    Scanner.save_filename ("a:b".data) "20240101_000000" ≠
      "scan_" ++ String.mk (Claims.sanitizeTarget ("a:b".data)) ++ "_" ++
        "20240101_000000" ++ ".txt" :=
  ⟨by decide, by decide, by decide⟩

/-- CLAIM C9 (amended): `save_results` names the output file
deterministically from the target with every '.' replaced by '_' (other
characters kept) followed by a timestamp, and writes the fixed report
layout: for target "10.0.0.1", for every timestamp the filename is
"scan_10_0_0_1_" followed by the timestamp and ".txt", the body for a
single open port 22/SSH contains the literal line
"22       open     SSH", and a port whose service is None is written with
service "unknown". -/
theorem save_results_format :
    (∀ ts : String, (Scanner.save_filename ("10.0.0.1".data) ts).data =
      "scan_10_0_0_1_".data ++ ts.data ++ ".txt".data) ∧
    (∀ ts2 : String, "22       open     SSH" ∈
      Scanner.save_lines ("10.0.0.1".data) ts2
        [{ port := 22, service := some "SSH", state := PortState.Open }]) ∧
    (∀ (ts2 : String) (st : PortState), "5432     open     unknown" ∈
      Scanner.save_lines ("10.0.0.1".data) ts2
        [{ port := 5432, service := none, state := st }]) := by
  refine ⟨?_, ?_, ?_⟩
  · intro ts
    simp only [Scanner.save_filename, String.data_append, List.append_assoc]
    rfl
  · intro ts2
    exact List.mem_append_right _
      (List.Mem.tail _ (List.Mem.tail _ (List.Mem.head _)))
  · intro ts2 st
    have hline : Scanner.port_line { port := 5432, service := none, state := st } =
        "5432     open     unknown" := by cases st <;> rfl
    have hmem : Scanner.port_line { port := 5432, service := none, state := st } ∈
        Scanner.save_lines ("10.0.0.1".data) ts2
          [{ port := 5432, service := none, state := st }] :=
      List.mem_append_right _
        (List.Mem.tail _ (List.Mem.tail _ (List.Mem.head _)))
    exact hline ▸ hmem

theorem parse_port_range_ok_ne_nil {input : Str} {ports : List Nat}
    (h : Scanner.parse_port_range input = Except.ok ports) : ports ≠ [] := by
  unfold Scanner.parse_port_range at h
  split at h
  · exact absurd h (by simp)
  · rename_i l hf
    split at h
    · exact absurd h (by simp)
    · rename_i hemp
      simp only [Except.ok.injEq] at h
      subst h
      intro hc
      have hlen := List.length_insertionSort (· ≤ ·) l
      rw [hc] at hlen
      have hl : l = [] := List.length_eq_zero.mp hlen.symm
      subst hl
      simp at hemp

theorem applyOp_cpInv (op : Scanner.Op) (s : ScannerState)
    (h : Scanner.cpInv s) : Scanner.cpInv (Scanner.applyOp op s) := by
  cases op with
  | prev =>
    cases s <;> simp_all [Scanner.applyOp, Scanner.previous, Scanner.cpInv]
  | next =>
    cases s <;> simp_all [Scanner.applyOp, Scanner.next, Scanner.cpInv]
  | confirmScanType =>
    cases s <;>
      simp_all [Scanner.applyOp, Scanner.confirm_scan_type, Scanner.cpInv]
  | handleChar c =>
    cases s <;> simp_all [Scanner.applyOp, Scanner.handle_char, Scanner.cpInv]
  | handleBackspace =>
    cases s <;>
      simp_all [Scanner.applyOp, Scanner.handle_backspace, Scanner.cpInv]
  | advanceToOptions =>
    cases s with
    | EnteringTarget ty input =>
      simp only [Scanner.applyOp, Scanner.advance_to_options]
      cases hv : Scanner.validate_target Char.isAlphanum (StrOps.trimCh input) with
      | error e => simp [Scanner.cpInv]
      | ok u =>
        by_cases hty : ty = ScanType.CustomRange
        · simp [hty, Scanner.cpInv]
        · simp [hty, Scanner.cpInv]
    | _ =>
      simp_all [Scanner.applyOp, Scanner.advance_to_options, Scanner.cpInv]
  | advanceFromPortRange =>
    cases s with
    | EnteringPortRange target input =>
      simp only [Scanner.applyOp, Scanner.advance_from_port_range]
      cases hp : Scanner.parse_port_range input with
      | error e => simp [Scanner.cpInv]
      | ok ports =>
        simp only [Scanner.cpInv]
        refine ⟨by simp, ?_⟩
        intro l hl
        cases hl
        exact parse_port_range_ok_ne_nil hp
    | _ =>
      simp_all [Scanner.applyOp, Scanner.advance_from_port_range, Scanner.cpInv]
  | handlePortRangeChar c =>
    cases s with
    | EnteringPortRange target input =>
      simp only [Scanner.applyOp, Scanner.handle_port_range_char]
      split <;> simp [Scanner.cpInv]
    | _ =>
      simp_all [Scanner.applyOp, Scanner.handle_port_range_char, Scanner.cpInv]
  | handlePortRangeBackspace =>
    cases s <;>
      simp_all [Scanner.applyOp, Scanner.handle_port_range_backspace, Scanner.cpInv]
  | toggleOption =>
    cases s with
    | SelectingOptions ty tgt sel sd stf cp =>
      simp only [Scanner.applyOp, Scanner.toggle_option]
      cases ScanOption.all.getD sel ScanOption.ServiceDetection <;>
        simpa [Scanner.cpInv] using h
    | _ =>
      simp_all [Scanner.applyOp, Scanner.toggle_option, Scanner.cpInv]
  | advanceToConfirmation =>
    cases s <;>
      simp_all [Scanner.applyOp, Scanner.advance_to_confirmation, Scanner.cpInv]
  | executeScan env =>
    cases s with
    | Confirming ty tgt sd stf cp =>
      simp only [Scanner.applyOp, Scanner.execute_scan]
      split
      · split
        · simp [Scanner.cpInv]
        · split <;> simp [Scanner.cpInv]
      · simp [Scanner.cpInv]
    | _ =>
      simp_all [Scanner.applyOp, Scanner.execute_scan, Scanner.cpInv]
  | goBack =>
    cases s with
    | SelectingOptions ty tgt sel sd stf cp =>
      simp only [Scanner.applyOp, Scanner.go_back]
      by_cases hty : ty = ScanType.CustomRange <;> simp [hty, Scanner.cpInv]
    | _ =>
      simp_all [Scanner.applyOp, Scanner.go_back, Scanner.cpInv]

/-- CLAIM C10: in every state reachable from `Scanner::new()` through the
public operations, whenever the state is `SelectingOptions`, `Confirming`
or `Scanning`, `custom_ports` is `Some` exactly when `scan_type` is
`CustomRange`; consequently `execute_scan` on a reachable CustomRange
confirmation scans the stored parsed list, which is nonempty, never the
empty `get_ports` default of CustomRange. -/
theorem custom_ports_invariant :
    (∀ s, Scanner.Reachable s → Scanner.cpInv s) ∧
    (∀ (ty : ScanType) (target : Str) (sd stf : Bool) (cp : Option (List Nat)),
      Scanner.Reachable (ScannerState.Confirming ty target sd stf cp) →
      ty = ScanType.CustomRange →
      ∃ l, cp = some l ∧ l ≠ [] ∧ Scanner.portsOf ty cp = l ∧
        ScanType.get_ports ScanType.CustomRange = []) := by
  have hinv : ∀ s, Scanner.Reachable s → Scanner.cpInv s := by
    intro s hs
    induction hs with
    | init => exact trivial
    | step h op ih => exact applyOp_cpInv _ _ ih
  refine ⟨hinv, ?_⟩
  intro ty target sd stf cp hr hty
  subst hty
  obtain ⟨hiff, hne⟩ := hinv _ hr
  cases cp with
  | none => simp at hiff
  | some l => exact ⟨l, rfl, hne l rfl, by simp [Scanner.portsOf], rfl⟩

/-- Witness for C10: a concrete reachable CustomRange confirmation, built
by driving the wizard from the initial state (select CustomRange, enter
target "1.2.3.4", enter range "80", confirm). -/
theorem custom_ports_invariant_witness :
    ∃ l, (some [80] : Option (List Nat)) = some l ∧ l ≠ [] ∧
      Scanner.portsOf ScanType.CustomRange (some [80]) = l ∧
      ScanType.get_ports ScanType.CustomRange = [] := by
  have hr : Scanner.Reachable
      (ScannerState.Confirming ScanType.CustomRange ("1.2.3.4".data) false false
        (some [80])) := by
    have h := (((((((((((((((Scanner.Reachable.init.step
      Scanner.Op.next).step Scanner.Op.next).step Scanner.Op.next).step
      Scanner.Op.confirmScanType).step (Scanner.Op.handleChar '1')).step
      (Scanner.Op.handleChar '.')).step (Scanner.Op.handleChar '2')).step
      (Scanner.Op.handleChar '.')).step (Scanner.Op.handleChar '3')).step
      (Scanner.Op.handleChar '.')).step (Scanner.Op.handleChar '4')).step
      Scanner.Op.advanceToOptions).step (Scanner.Op.handlePortRangeChar '8')).step
      (Scanner.Op.handlePortRangeChar '0')).step
      Scanner.Op.advanceFromPortRange).step Scanner.Op.advanceToConfirmation
    exact h
  exact custom_ports_invariant.2 ScanType.CustomRange ("1.2.3.4".data) false false
    (some [80]) hr rfl
